import Mathlib

/-!
Verification development for the ecosystem simulation
(`src/ecosystem/bird.py`, `src/ecosystem/frog.py`, `src/ecosystem/snake.py`).

Coordinates are modelled over the reals.  `pygame.Vector2` becomes `Vec2`;
`Vector2.normalize` raises `ValueError` on a zero-length vector, so it is
modelled as an `Option`.  Python's per-tick random draws are passed in
explicitly (`BirdRand`, `FrogRand`, a fresh target for the snake), and the
ambient wall clock read by `pygame.time.get_ticks()` becomes an explicit
`ticks` argument, so that the entity updates are functions.
-/

/-- Shallow embedding of `pygame.Vector2`: a pair of real coordinates. -/
@[ext]
structure Vec2 where
  x : ℝ
  y : ℝ

namespace Vec2

/-- Componentwise vector addition (`Vector2.__add__`). -/
def add (v w : Vec2) : Vec2 := ⟨v.x + w.x, v.y + w.y⟩

/-- Componentwise vector subtraction (`Vector2.__sub__`). -/
def sub (v w : Vec2) : Vec2 := ⟨v.x - w.x, v.y - w.y⟩

/-- Scalar multiple (`Vector2.__mul__` with a scalar). -/
def smul (c : ℝ) (v : Vec2) : Vec2 := ⟨c * v.x, c * v.y⟩

/-- Euclidean length (`Vector2.length`). -/
noncomputable def length (v : Vec2) : ℝ := Real.sqrt (v.x ^ 2 + v.y ^ 2)

/-- Normalisation (`Vector2.normalize`).  pygame raises
`ValueError: Can't normalize Vector of length Zero` when the length is zero,
modelled by `none`. -/
noncomputable def normalize? (v : Vec2) : Option Vec2 :=
  if length v = 0 then none else some ⟨v.x / length v, v.y / length v⟩

/-- Rotation by an angle in radians (`Vector2.rotate_ip`; the bird converts
its radian turn with `math.degrees` and pygame converts back, so the net
effect is a rotation by the radian angle). -/
noncomputable def rotate (v : Vec2) (t : ℝ) : Vec2 :=
  ⟨v.x * Real.cos t - v.y * Real.sin t, v.x * Real.sin t + v.y * Real.cos t⟩

theorem length_zero : length ⟨0, 0⟩ = 0 := by
  simp [length]

theorem length_axis (a : ℝ) : length ⟨a, 0⟩ = |a| := by
  simp [length, Real.sqrt_sq_eq_abs]

theorem normalize?_axis_pos (a : ℝ) (h : 0 < a) :
    normalize? ⟨a, 0⟩ = some ⟨1, 0⟩ := by
  rw [normalize?, if_neg]
  · simp [length_axis, abs_of_pos h, div_self (ne_of_gt h)]
  · rw [length_axis]
    exact fun hc => absurd hc (by positivity)

end Vec2

/-- State of a `Bird` (`src/ecosystem/bird.py`).  Fields follow
`Bird.__init__` plus the `x`/`y`/`width`/`alive` attributes of the
`Critter` base; render-only constants (`color`, avatar surfaces) carry no
information for the update and are omitted. -/
@[ext]
structure Bird where
  position : Vec2
  velocity : Vec2
  size : ℝ
  wing_angle : ℝ
  wing_speed : ℝ
  turn_chance : ℝ
  target_angle : ℝ
  turn_speed : ℝ
  alive : Bool
  x : ℝ
  y : ℝ
  width : ℝ
  max_height : ℝ

/-- Random draws consumed by one call of `Bird.update`: `random.random()`
for the turn check, `random.uniform(-pi/4, pi/4)` for a fresh target angle,
and `random.random()` for the death check. -/
structure BirdRand where
  r_turn : ℝ
  turn_draw : ℝ
  r_death : ℝ

/-- Tentative position `self.position += self.velocity * activity * delta * 60`
(`src/ecosystem/bird.py`, line 81), before reflection and clamping. -/
noncomputable def birdTentative (b : Bird) (delta activity : ℝ) : Vec2 :=
  Vec2.add b.position (Vec2.smul (activity * delta * 60) b.velocity)

/-- Velocity after the boundary reflection (`src/ecosystem/bird.py`,
lines 83-86): a component's sign flips when the tentative position crosses
the corresponding bound of the band `[0, width] × [0, max_height]`. -/
noncomputable def birdReflect (b : Bird) (delta activity : ℝ) : Vec2 :=
  ⟨if (birdTentative b delta activity).x < 0 ∨ b.width < (birdTentative b delta activity).x
     then -b.velocity.x else b.velocity.x,
   if (birdTentative b delta activity).y < 0 ∨ b.max_height < (birdTentative b delta activity).y
     then -b.velocity.y else b.velocity.y⟩

/-- Target angle after the random turn draw (`src/ecosystem/bird.py`,
lines 91-92): with probability `turn_chance` a fresh angle is drawn. -/
noncomputable def birdTa (b : Bird) (r : BirdRand) : ℝ :=
  if r.r_turn < b.turn_chance then r.turn_draw else b.target_angle

/-- Turn step (`src/ecosystem/bird.py`, lines 94-100): when the target
angle is noticeable, rotate the velocity toward it by
`actual_turn = min(abs(target_angle), turn_speed * delta) * turn_direction`
and subtract the turned amount from the target angle. -/
noncomputable def birdTurn (b : Bird) (delta : ℝ) (vel : Vec2) (ta : ℝ) : Vec2 × ℝ :=
  if 0.01 < |ta| then
    (Vec2.rotate vel (min |ta| (b.turn_speed * delta) * (if 0 < ta then 1 else -1)),
     ta - min |ta| (b.turn_speed * delta) * (if 0 < ta then 1 else -1))
  else (vel, ta)

/-- Shallow embedding of `Bird.update(delta, activity)`
(`src/ecosystem/bird.py`, lines 72-107): tentative move, reflection,
clamping into the band, random turn, wing animation from the ambient
clock `ticks` (the `pygame.time.get_ticks()` read), and the random
spontaneous-death check. -/
noncomputable def birdUpdate (b : Bird) (delta activity : ℝ) (r : BirdRand) (ticks : ℝ) : Bird :=
  { b with
    position := ⟨max 0 (min (birdTentative b delta activity).x b.width),
                 max 0 (min (birdTentative b delta activity).y b.max_height)⟩
    velocity := (birdTurn b delta (birdReflect b delta activity) (birdTa b r)).1
    target_angle := (birdTurn b delta (birdReflect b delta activity) (birdTa b r)).2
    wing_angle := Real.sin (ticks * b.wing_speed * 0.001) * 45
    alive := if r.r_death < 0.001 * delta then false else b.alive
    x := max 0 (min (birdTentative b delta activity).x b.width)
    y := max 0 (min (birdTentative b delta activity).y b.max_height) }

/-- State effect of `Bird.draw` (`src/ecosystem/bird.py`, lines 109-162):
the method writes only to pygame surfaces, never to an entity attribute,
so its effect on the bird's own state is the identity. -/
def birdDrawState (b : Bird) : Bird := b

/-- Lifecycle states of a `Frog`; the `state` string of
`src/ecosystem/frog.py` only ever holds `"rest"` or `"jump"`. -/
inductive FrogSt where
  | rest : FrogSt
  | jump : FrogSt
deriving DecidableEq

/-- State of a `Frog` (`src/ecosystem/frog.py`).  Fields follow
`Frog.__init__` plus the `Critter` attributes; the render-only colour
constants are omitted. -/
@[ext]
structure Frog where
  x : ℝ
  y : ℝ
  width : ℝ
  height : ℝ
  size : ℝ
  jump_height : ℝ
  jump_duration : ℝ
  rest_duration : ℝ
  state : FrogSt
  state_time : ℝ
  jump_start_y : ℝ
  jump_target_x : ℝ
  scale : ℝ
  alive : Bool

/-- Random draws consumed by one call of `Frog.update`:
`random.uniform(50, 150)` for the jump distance, the two
`random.uniform(-jump_distance, jump_distance)` offsets drawn by
`start_jump` (the second overwrites the first), and `random.random()`
for the death check. -/
structure FrogRand where
  jump_distance : ℝ
  offA : ℝ
  offB : ℝ
  r_death : ℝ

/-- Shallow embedding of `Frog.start_jump` (`src/ecosystem/frog.py`,
lines 79-95).  The method computes `new_x` and `jump_target_x` twice with
fresh draws; the second assignment (using `offB`) is the one that
survives. -/
noncomputable def frogStartJump (f : Frog) (r : FrogRand) : Frog :=
  { f with
    state := FrogSt.jump
    state_time := 0
    jump_start_y := f.y
    jump_target_x := max (f.size / 2) (min (f.width - f.size / 2) (f.x + r.offB)) }

/-- Shallow embedding of `Frog.update(delta, activity)`
(`src/ecosystem/frog.py`, lines 52-77); `activity` is accepted and unused,
as in the source. -/
noncomputable def frogUpdate (f : Frog) (delta activity : ℝ) (r : FrogRand) : Frog :=
  let f1 : Frog := { f with state_time := f.state_time + delta }
  let f2 : Frog :=
    match f1.state with
    | FrogSt.rest =>
        if f1.rest_duration ≤ f1.state_time then frogStartJump f1 r else f1
    | FrogSt.jump =>
        let progress := f1.state_time / f1.jump_duration
        if progress ≤ 1 then
          { f1 with
            y := f1.jump_start_y - f1.jump_height * Real.sin (progress * Real.pi)
            x := f1.x + (f1.jump_target_x - f1.x) * delta / f1.jump_duration }
        else
          { f1 with state := FrogSt.rest, state_time := 0, y := f1.jump_start_y }
  if r.r_death < 0.01 * delta then { f2 with alive := false } else f2

/-- State effect of `Frog.draw` (`src/ecosystem/frog.py`, lines 97-123):
besides drawing, line 105 assigns `self.scale = 0.5 + (self.y / self.height) * 0.5`,
so the draw is not a pure read of the frog's state. -/
noncomputable def frogDrawState (f : Frog) : Frog :=
  { f with scale := 0.5 + (f.y / f.height) * 0.5 }

/-- Shallow embedding of `Frog.spawn` (`src/ecosystem/frog.py`,
lines 125-130); `x0` is the `random.randint(0, width)` draw. -/
def frogSpawn (f : Frog) (x0 : ℝ) : Frog :=
  { f with alive := true, y := f.height - 20, x := x0, scale := 0.1 }

/-- Lifecycle states of a `Snake` (`src/ecosystem/snake.py`): the `state`
string holds `"inactive"`, `"spawn"`, `"active"` or `"despawn"`. -/
inductive SnakeSt where
  | inactive : SnakeSt
  | spawn : SnakeSt
  | active : SnakeSt
  | despawn : SnakeSt
deriving DecidableEq

/-- State of a `Snake` (`src/ecosystem/snake.py`).  Fields follow
`Snake.__init__` plus the `Critter` attributes; the render-only colour and
avatar surfaces are omitted. -/
@[ext]
structure Snake where
  segments : List Vec2
  direction : Vec2
  min_y : ℝ
  max_y : ℝ
  speed : ℝ
  length : ℕ
  target : Vec2
  state : SnakeSt
  scale : ℝ
  alive : Bool
  width : ℝ
  height : ℝ

/-- Shallow embedding of `Snake.__init__` (`src/ecosystem/snake.py`,
lines 16-49).  `target0` is the random target drawn by `get_new_target`;
`Int.floor` models Python's `int()` on the nonnegative products
`height * 0.65` and `height * 0.80`.  The `alive0` flag is the initial
`alive` value set by the `Critter` base class, whose file is not among the
sources. -/
noncomputable def snakeInit (x y width height : ℝ) (target0 : Vec2) (alive0 : Bool) : Snake :=
  { segments := [⟨x, y⟩]
    direction := ⟨1, 0⟩
    min_y := ((⌊height * 0.65⌋ : ℤ) : ℝ)
    max_y := ((⌊height * 0.80⌋ : ℤ) : ℝ)
    speed := 2
    length := 50
    target := target0
    state := SnakeSt.inactive
    scale := 0.1
    alive := alive0
    width := width
    height := height }

/-- Head advance of `Snake.update` (`src/ecosystem/snake.py`,
lines 101-103): move along `direction` by `speed * activity * delta * 60`,
then clamp only the `y` coordinate into `[min_y, max_y]`. -/
noncomputable def snakeNewHead (s : Snake) (delta activity : ℝ) (head direction : Vec2) : Vec2 :=
  let nh := Vec2.add head (Vec2.smul (s.speed * activity * delta * 60) direction)
  ⟨nh.x, max (min nh.y s.max_y) s.min_y⟩

/-- Retargeting step of `Snake.update` (`src/ecosystem/snake.py`,
lines 95-97): when the head is within distance 10 of the target, the new
random target `newTarget` (the draw of `get_new_target`) replaces it. -/
noncomputable def snakeRetarget (s : Snake) (head newTarget : Vec2) : Vec2 :=
  if (Vec2.sub s.target head).length < 10 then newTarget else s.target

/-- Movement phase of `Snake.update` (`src/ecosystem/snake.py`,
lines 94-107): retarget when within distance 10, normalise the
head-to-target vector (`none` models the unguarded `ValueError` on a
zero-length vector, and an out-of-range `segments[0]` on an empty list),
push the new head, and pop the tail once the trail exceeds `length`. -/
noncomputable def snakeMove (s : Snake) (delta activity : ℝ) (newTarget : Vec2) : Option Snake :=
  match s.segments with
  | [] => none
  | head :: _ =>
    match Vec2.normalize? (Vec2.sub (snakeRetarget s head newTarget) head) with
    | none => none
    | some direction =>
      some { s with
              target := snakeRetarget s head newTarget
              direction := direction
              segments :=
                if s.length < ((snakeNewHead s delta activity head direction) :: s.segments).length
                then ((snakeNewHead s delta activity head direction) :: s.segments).dropLast
                else (snakeNewHead s delta activity head direction) :: s.segments }

/-- Scale ramp of `Snake.update` (`src/ecosystem/snake.py`, lines 83-91):
in the spawn state `scale` ramps up by `delta` capped at 1.0 and the state
switches to active exactly when the cap is reached; in the despawn state
`scale` ramps down by `delta` floored at 0.0. -/
noncomputable def snakePhase (s : Snake) (delta : ℝ) : Snake :=
  if s.state = SnakeSt.spawn then
    { s with scale := min 1.0 (s.scale + delta)
             state := if min 1.0 (s.scale + delta) = 1.0 then SnakeSt.active else SnakeSt.spawn }
  else if s.state = SnakeSt.despawn then
    { s with scale := max 0.0 (s.scale - delta) }
  else s

/-- Shallow embedding of `Snake.update(delta, activity)`
(`src/ecosystem/snake.py`, lines 71-107): return unchanged when inactive;
otherwise run the scale ramp, take the early despawn-completion return when
the ramped scale has hit `0.0` in the despawn state, and otherwise run the
movement phase. -/
noncomputable def snakeUpdate (s : Snake) (delta activity : ℝ) (newTarget : Vec2) : Option Snake :=
  if s.state = SnakeSt.inactive then some s
  else
    if (snakePhase s delta).state = SnakeSt.despawn ∧ (snakePhase s delta).scale = 0.0 then
      some { snakePhase s delta with alive := false, state := SnakeSt.inactive }
    else snakeMove (snakePhase s delta) delta activity newTarget

/-- State effect of `Snake.draw` (`src/ecosystem/snake.py`, lines 109-154):
the method reads segments, scale and colour and writes only to pygame
surfaces, so its effect on the snake's own state is the identity. -/
def snakeDrawState (s : Snake) : Snake := s

/-- Shallow embedding of `Snake.activate` (`src/ecosystem/snake.py`,
lines 156-158). -/
def snakeActivate (s : Snake) : Snake :=
  { s with state := SnakeSt.spawn, scale := 0.1 }

/-- Shallow embedding of `Snake.deactivate` (`src/ecosystem/snake.py`,
lines 160-161); `Snake.despawn` (lines 169-170) just calls it. -/
def snakeDeactivate (s : Snake) : Snake :=
  { s with state := SnakeSt.despawn }

/-- Shallow embedding of `Snake.spawn` (`src/ecosystem/snake.py`,
lines 163-167); `pos0` is the random single segment drawn there (the
colour redraw is render-only). -/
def snakeSpawn (s : Snake) (pos0 : Vec2) : Snake :=
  { (snakeActivate { s with alive := true }) with segments := [pos0] }

/-- Condition under which `Snake.update` takes the early despawn-completion
return (`src/ecosystem/snake.py`, lines 87-92): the snake is despawning and
the ramped-down scale `max(0.0, scale - delta)` has reached `0.0`. -/
def snakeDespawnDone (s : Snake) (delta : ℝ) : Prop :=
  s.state = SnakeSt.despawn ∧ max 0.0 (s.scale - delta) = 0.0

theorem snakeMove_some {s : Snake} {delta activity : ℝ} {nt : Vec2} {r : Snake}
    (h : snakeMove s delta activity nt = some r) :
    ∃ hd tl dir,
      s.segments = hd :: tl ∧
      Vec2.normalize? (Vec2.sub (snakeRetarget s hd nt) hd) = some dir ∧
      r = { s with
            target := snakeRetarget s hd nt
            direction := dir
            segments :=
              if s.length < (hd :: tl).length + 1 then
                (snakeNewHead s delta activity hd dir) :: (hd :: tl).dropLast
              else (snakeNewHead s delta activity hd dir) :: hd :: tl } := by
  unfold snakeMove at h
  split at h
  · simp at h
  · rename_i hd tl hseg
    split at h
    · simp at h
    · rename_i dir hn
      simp only [Option.some.injEq] at h
      refine ⟨hd, tl, dir, hseg, hn, ?_⟩
      rw [← h, hseg]
      by_cases hl : s.length < tl.length + 1 + 1
      · rw [if_pos (by simp [hseg]; omega), if_pos (by simp; omega)]
        simp [hseg, List.dropLast_cons₂]
      · rw [if_neg (by simp [hseg]; omega), if_neg (by simp; omega)]

theorem snakePhase_fields (s : Snake) (delta : ℝ) :
    (snakePhase s delta).segments = s.segments ∧
    (snakePhase s delta).target = s.target ∧
    (snakePhase s delta).alive = s.alive ∧
    (snakePhase s delta).length = s.length ∧
    (snakePhase s delta).min_y = s.min_y ∧
    (snakePhase s delta).max_y = s.max_y ∧
    (snakePhase s delta).speed = s.speed := by
  unfold snakePhase
  split
  · exact ⟨rfl, rfl, rfl, rfl, rfl, rfl, rfl⟩
  · split
    · exact ⟨rfl, rfl, rfl, rfl, rfl, rfl, rfl⟩
    · exact ⟨rfl, rfl, rfl, rfl, rfl, rfl, rfl⟩

theorem snakePhase_state_spawn {s : Snake} (delta : ℝ) (h : s.state = SnakeSt.spawn) :
    (snakePhase s delta).state =
      (if min 1.0 (s.scale + delta) = 1.0 then SnakeSt.active else SnakeSt.spawn) ∧
    (snakePhase s delta).scale = min 1.0 (s.scale + delta) := by
  unfold snakePhase
  rw [if_pos h]
  exact ⟨rfl, rfl⟩

theorem snakePhase_state_despawn {s : Snake} (delta : ℝ) (h : s.state = SnakeSt.despawn) :
    (snakePhase s delta).state = SnakeSt.despawn ∧
    (snakePhase s delta).scale = max 0.0 (s.scale - delta) := by
  unfold snakePhase
  rw [if_neg (by rw [h]; exact fun hc => SnakeSt.noConfusion hc), if_pos h]
  exact ⟨h, rfl⟩

theorem snakePhase_state_other {s : Snake} (delta : ℝ)
    (h1 : s.state ≠ SnakeSt.spawn) (h2 : s.state ≠ SnakeSt.despawn) :
    snakePhase s delta = s := by
  unfold snakePhase
  rw [if_neg h1, if_neg h2]

theorem snakeUpdate_cases {s : Snake} {delta activity : ℝ} {nt : Vec2} {r : Snake}
    (h : snakeUpdate s delta activity nt = some r) :
    (s.state = SnakeSt.inactive ∧ r = s) ∨
    (snakeDespawnDone s delta ∧
      r = { snakePhase s delta with alive := false, state := SnakeSt.inactive }) ∨
    (s.state ≠ SnakeSt.inactive ∧ ¬ snakeDespawnDone s delta ∧
      snakeMove (snakePhase s delta) delta activity nt = some r) := by
  unfold snakeUpdate at h
  by_cases hin : s.state = SnakeSt.inactive
  · rw [if_pos hin] at h
    exact Or.inl ⟨hin, (Option.some.injEq _ _ ▸ h).symm⟩
  · rw [if_neg hin] at h
    have hdd : ((snakePhase s delta).state = SnakeSt.despawn ∧
        (snakePhase s delta).scale = 0.0) ↔ snakeDespawnDone s delta := by
      unfold snakeDespawnDone
      constructor
      · rintro ⟨h1, h2⟩
        by_cases hsp : s.state = SnakeSt.spawn
        · rcases snakePhase_state_spawn delta hsp with ⟨hst, _⟩
          rw [hst] at h1
          by_cases hm : min 1.0 (s.scale + delta) = 1.0
          · rw [if_pos hm] at h1; exact absurd h1 (by simp)
          · rw [if_neg hm] at h1; exact absurd h1 (by simp)
        · by_cases hde : s.state = SnakeSt.despawn
          · rcases snakePhase_state_despawn delta hde with ⟨_, hsc⟩
            rw [hsc] at h2
            exact ⟨hde, h2⟩
          · rw [snakePhase_state_other delta hsp hde] at h1
            exact absurd h1 hde
      · rintro ⟨h1, h2⟩
        rcases snakePhase_state_despawn delta h1 with ⟨hst, hsc⟩
        exact ⟨hst, by rw [hsc]; exact h2⟩
    by_cases hd : snakeDespawnDone s delta
    · rw [if_pos (hdd.mpr hd)] at h
      exact Or.inr (Or.inl ⟨hd, (Option.some.injEq _ _ ▸ h).symm⟩)
    · rw [if_neg (fun hc => hd (hdd.mp hc))] at h
      exact Or.inr (Or.inr ⟨hin, hd, h⟩)

theorem snakeMove_some_fields {s : Snake} {delta activity : ℝ} {nt : Vec2} {r : Snake}
    (h : snakeMove s delta activity nt = some r) :
    r.state = s.state ∧ r.alive = s.alive ∧ r.scale = s.scale ∧
    r.length = s.length ∧ r.min_y = s.min_y ∧ r.max_y = s.max_y := by
  rcases snakeMove_some h with ⟨hd, tl, dir, hseg, hn, rfl⟩
  exact ⟨rfl, rfl, rfl, rfl, rfl, rfl⟩

/-- C2: `Snake.update` clears `alive` and reaches the inactive state only
from the despawn state; a snake whose state is not `"despawn"` (in
particular an active one) keeps its `alive` flag and never becomes
inactive in one update (`src/ecosystem/snake.py`, lines 80-107): the only
assignment `self.alive = False` sits in the `elif self.state == "despawn"`
branch, so snakes have no spontaneous-death clause, unlike birds and
frogs. -/
theorem snake_no_spontaneous_death (s : Snake) (delta activity : ℝ) (nt : Vec2) (r : Snake)
    (hup : snakeUpdate s delta activity nt = some r)
    (hnd : s.state ≠ SnakeSt.despawn) :
    r.alive = s.alive ∧ (r.state = SnakeSt.inactive ↔ s.state = SnakeSt.inactive) ∧
    (s.state = SnakeSt.active → r.state = SnakeSt.active) := by
  rcases snakeUpdate_cases hup with ⟨hin, rfl⟩ | ⟨⟨hd, _⟩, _⟩ | ⟨hin, _, hm⟩
  · exact ⟨rfl, Iff.rfl, fun h => h⟩
  · exact absurd hd hnd
  · have hfields := snakeMove_some_fields hm
    have hph := snakePhase_fields s delta
    have hrs : r.state ≠ SnakeSt.inactive := by
      rw [hfields.1]
      by_cases hsp : s.state = SnakeSt.spawn
      · rw [(snakePhase_state_spawn delta hsp).1]
        split
        · simp
        · simp
      · rw [snakePhase_state_other delta hsp hnd]
        exact hin
    refine ⟨hfields.2.1.trans hph.2.2.1, iff_of_false hrs hin, fun hact => ?_⟩
    rw [hfields.1, snakePhase_state_other delta (by rw [hact]; simp) hnd]
    exact hact

/-- C6: scale ramp of `Snake.update` (`src/ecosystem/snake.py`,
lines 83-92): in the spawn state one update sets
`scale = min(1.0, scale + delta)` and the state becomes active exactly
when that value is `1.0`; in the despawn state one update sets
`scale = max(0.0, scale - delta)` and exactly when that value is `0.0`
the update clears `alive` and moves to the inactive state. -/
theorem snake_scale_ramp (s : Snake) (delta activity : ℝ) (nt : Vec2) (r : Snake)
    (hup : snakeUpdate s delta activity nt = some r) :
    (s.state = SnakeSt.spawn →
      r.scale = min 1.0 (s.scale + delta) ∧
      (r.state = SnakeSt.active ↔ min 1.0 (s.scale + delta) = 1.0)) ∧
    (s.state = SnakeSt.despawn →
      r.scale = max 0.0 (s.scale - delta) ∧
      ((r.alive = false ∧ r.state = SnakeSt.inactive) ↔ max 0.0 (s.scale - delta) = 0.0)) := by
  rcases snakeUpdate_cases hup with ⟨hin, rfl⟩ | ⟨hd, rfl⟩ | ⟨hin, hnd, hm⟩
  · constructor
    · intro hs; rw [hs] at hin; exact absurd hin (by simp)
    · intro hs; rw [hs] at hin; exact absurd hin (by simp)
  · have hdone := hd
    rcases hd with ⟨hds, hsc⟩
    constructor
    · intro hs; rw [hs] at hds; exact absurd hds (by simp)
    · intro _
      rcases snakePhase_state_despawn delta hds with ⟨_, hpsc⟩
      constructor
      · show (snakePhase s delta).scale = max 0.0 (s.scale - delta)
        exact hpsc
      · exact iff_of_true ⟨rfl, rfl⟩ hsc
  · have hfields := snakeMove_some_fields hm
    constructor
    · intro hs
      rcases snakePhase_state_spawn delta hs with ⟨hpst, hpsc⟩
      refine ⟨hfields.2.2.1.trans hpsc, ?_⟩
      rw [hfields.1, hpst]
      by_cases hc : min 1.0 (s.scale + delta) = 1.0
      · rw [if_pos hc]
        exact iff_of_true rfl hc
      · rw [if_neg hc]
        exact iff_of_false (by simp) hc
    · intro hs
      rcases snakePhase_state_despawn delta hs with ⟨hpst, hpsc⟩
      refine ⟨hfields.2.2.1.trans hpsc, ?_⟩
      have hne : max 0.0 (s.scale - delta) ≠ 0.0 := fun hc => hnd ⟨hs, hc⟩
      refine iff_of_false (fun hc => ?_) hne
      rw [hfields.1, hpst] at hc
      exact absurd hc.2 (by simp)

/-- C10: every Snake operation keeps the `segments` list nonempty, so the
`segments[0]` head access in `Snake.update` and `Snake.draw` is always
defined: the constructor and `spawn` build a one-element list
(`src/ecosystem/snake.py`, lines 30 and 166), `deactivate` leaves the list
untouched, and a successful `update` either keeps the list or pushes a new
head (popping at most one old element afterwards). -/
theorem snake_segments_nonempty :
    (∀ (x y w h : ℝ) (t0 : Vec2) (a0 : Bool), (snakeInit x y w h t0 a0).segments ≠ []) ∧
    (∀ (s : Snake) (delta activity : ℝ) (nt : Vec2) (r : Snake),
      s.segments ≠ [] → snakeUpdate s delta activity nt = some r → r.segments ≠ []) ∧
    (∀ (s : Snake) (p0 : Vec2), (snakeSpawn s p0).segments ≠ []) ∧
    (∀ s : Snake, (snakeDeactivate s).segments = s.segments) := by
  refine ⟨?_, ?_, ?_, ?_⟩
  · intro x y w h t0 a0
    simp [snakeInit]
  · intro s delta activity nt r hne hup
    rcases snakeUpdate_cases hup with ⟨_, rfl⟩ | ⟨_, rfl⟩ | ⟨_, _, hm⟩
    · exact hne
    · show (snakePhase s delta).segments ≠ []
      rw [(snakePhase_fields s delta).1]
      exact hne
    · rcases snakeMove_some hm with ⟨hd, tl, dir, hseg, hn, rfl⟩
      show (if _ then _ else _) ≠ []
      split
      · simp
      · simp
  · intro s p0
    simp [snakeSpawn, snakeActivate]
  · intro s
    rfl

theorem snakeNewHead_phase (s : Snake) (delta activity : ℝ) (hd dir : Vec2) :
    snakeNewHead (snakePhase s delta) delta activity hd dir =
    snakeNewHead s delta activity hd dir := by
  unfold snakeNewHead
  rcases snakePhase_fields s delta with ⟨_, _, _, _, h5, h6, h7⟩
  rw [h5, h6, h7]

theorem snakeUpdate_active_step {s : Snake} {delta activity : ℝ} {nt : Vec2} {r : Snake}
    (hup : snakeUpdate s delta activity nt = some r) (hact : s.state = SnakeSt.active)
    (hlen : s.segments.length ≤ s.length) :
    r.state = SnakeSt.active ∧ r.length = s.length ∧
    r.segments.length = min (s.segments.length + 1) s.length := by
  rcases snakeUpdate_cases hup with ⟨hin, rfl⟩ | ⟨⟨hd, _⟩, _⟩ | ⟨hin, _, hm⟩
  · rw [hact] at hin; exact absurd hin (by simp)
  · rw [hact] at hd; exact absurd hd (by simp)
  · rw [snakePhase_state_other delta (by rw [hact]; simp) (by rw [hact]; simp)] at hm
    rcases snakeMove_some hm with ⟨hd, tl, dir, hseg, hn, rfl⟩
    refine ⟨hact, rfl, ?_⟩
    have hl1 : s.segments.length = tl.length + 1 := by rw [hseg]; simp
    dsimp only
    by_cases hc : s.length < (hd :: tl).length + 1
    · rw [if_pos hc]
      simp only [List.length_cons, List.length_dropLast] at hc ⊢
      omega
    · rw [if_neg hc]
      simp only [List.length_cons] at hc ⊢
      omega

/-- Iterated `Snake.update` with a fixed `delta` and `activity` and a
stream `ts` of random targets, one per potential retargeting. -/
noncomputable def snakeIter (delta activity : ℝ) (ts : ℕ → Vec2) : ℕ → Snake → Option Snake
  | 0, s => some s
  | k + 1, s =>
      (snakeUpdate s delta activity (ts 0)).bind
        (snakeIter delta activity (fun n => ts (n + 1)) k)

theorem snakeIter_active {delta activity : ℝ} :
    ∀ (k : ℕ) (ts : ℕ → Vec2) (s r : Snake),
      s.state = SnakeSt.active → s.segments.length ≤ s.length →
      snakeIter delta activity ts k s = some r →
      r.state = SnakeSt.active ∧ r.length = s.length ∧
      r.segments.length = min (s.segments.length + k) s.length := by
  intro k
  induction k with
  | zero =>
    intro ts s r hact hlen hit
    rw [snakeIter] at hit
    cases hit
    exact ⟨hact, rfl, by omega⟩
  | succ k ih =>
    intro ts s r hact hlen hit
    rw [snakeIter] at hit
    cases hu : snakeUpdate s delta activity (ts 0) with
    | none => rw [hu] at hit; simp at hit
    | some s1 =>
      rw [hu] at hit
      simp only [Option.some_bind] at hit
      have hstep := snakeUpdate_active_step hu hact hlen
      have hrec := ih (fun n => ts (n + 1)) s1 r hstep.1 (by omega) hit
      refine ⟨hrec.1, hrec.2.1.trans hstep.2.1, ?_⟩
      have h1 := hrec.2.2
      have h2 := hstep.2.2
      have h3 := hstep.2.1
      omega

/-- C5 (amended): for every Snake not in the inactive state whose update
does not take the early despawn-completion return and succeeds, the update
pushes the newly computed head to the front of `segments` and pops the
tail exactly when the count would exceed `length`
(`src/ecosystem/snake.py`, lines 105-107); consequently, starting from an
active snake with a single segment, `length + 5` successful updates leave
exactly `length` segments, and `segments[0]` is always the most recently
computed head. -/
theorem snake_trail :
    (∀ (s : Snake) (delta activity : ℝ) (nt : Vec2) (r : Snake) (hd : Vec2) (tl : List Vec2),
      snakeUpdate s delta activity nt = some r →
      s.state ≠ SnakeSt.inactive → ¬ snakeDespawnDone s delta →
      s.segments = hd :: tl →
      r.segments.head? = some (snakeNewHead s delta activity hd r.direction) ∧
      r.segments.length =
        (if s.length < s.segments.length + 1 then s.segments.length else s.segments.length + 1))
    ∧
    (∀ (s : Snake) (delta activity : ℝ) (ts : ℕ → Vec2) (r : Snake),
      s.state = SnakeSt.active → s.segments.length = 1 → 1 ≤ s.length →
      snakeIter delta activity ts (s.length + 5) s = some r →
      r.segments.length = s.length ∧ r.state = SnakeSt.active) := by
  constructor
  · intro s delta activity nt r hd tl hup hin hnd hseg
    rcases snakeUpdate_cases hup with ⟨hc, _⟩ | ⟨hc, _⟩ | ⟨_, _, hm⟩
    · exact absurd hc hin
    · exact absurd hc hnd
    · rcases snakeMove_some hm with ⟨hd1, tl1, dir, hseg1, hn, rfl⟩
      rw [(snakePhase_fields s delta).1, hseg] at hseg1
      injection hseg1 with e1 e2
      subst e1
      subst e2
      have hlen : (snakePhase s delta).length = s.length := (snakePhase_fields s delta).2.2.2.1
      constructor
      · dsimp only
        rw [snakeNewHead_phase]
        split
        · simp
        · simp
      · have hl1 : s.segments.length = tl.length + 1 := by rw [hseg]; simp
        dsimp only
        rw [hlen]
        by_cases hc : s.length < (hd :: tl).length + 1
        · rw [if_pos hc, if_pos (by simp only [List.length_cons] at hc ⊢; omega)]
          simp only [List.length_cons, List.length_dropLast]
          omega
        · rw [if_neg hc, if_neg (by simp only [List.length_cons] at hc ⊢; omega)]
          simp only [List.length_cons]
          omega
  · intro s delta activity ts r hact hseg1 hlen hit
    have := snakeIter_active (s.length + 5) ts s r hact (by omega) hit
    refine ⟨?_, this.1⟩
    rw [this.2.2, hseg1]
    omega

theorem birdUpdate_position (b : Bird) (delta activity : ℝ) (r : BirdRand) (ticks : ℝ) :
    (birdUpdate b delta activity r ticks).position =
      ⟨max 0 (min (Vec2.add b.position (Vec2.smul (activity * delta * 60) b.velocity)).x b.width),
       max 0 (min (Vec2.add b.position (Vec2.smul (activity * delta * 60) b.velocity)).y b.max_height)⟩ := rfl

theorem birdUpdate_wing (b : Bird) (delta activity : ℝ) (r : BirdRand) (ticks : ℝ) :
    (birdUpdate b delta activity r ticks).wing_angle =
      Real.sin (ticks * b.wing_speed * 0.001) * 45 := rfl

/-- C1 (amended): per-kind position bands after `update`.  The bird's
position is clamped into `[0, width] × [0, max_height]`
(`src/ecosystem/bird.py`, lines 88-89).  The snake clamps only the head's
`y` into `[min_y, max_y]` (`src/ecosystem/snake.py`, line 103); the head's
`x` is never clamped to `[0, width]`.  The frog's `y` stays at or above
`jump_start_y` during jump updates, and `start_jump` clamps the jump
target `x` — not the position `x` itself — into
`[size/2, width - size/2]` (`src/ecosystem/frog.py`, lines 69 and 92-95). -/
theorem band_invariants :
    (∀ (b : Bird) (delta activity : ℝ) (r : BirdRand) (ticks : ℝ),
      0 ≤ b.width → 0 ≤ b.max_height →
      0 ≤ (birdUpdate b delta activity r ticks).position.x ∧
      (birdUpdate b delta activity r ticks).position.x ≤ b.width ∧
      0 ≤ (birdUpdate b delta activity r ticks).position.y ∧
      (birdUpdate b delta activity r ticks).position.y ≤ b.max_height)
    ∧
    (∀ (s : Snake) (delta activity : ℝ) (nt : Vec2) (r : Snake),
      snakeUpdate s delta activity nt = some r →
      s.state ≠ SnakeSt.inactive → ¬ snakeDespawnDone s delta →
      s.min_y ≤ s.max_y →
      ∃ hd tl, r.segments = hd :: tl ∧ s.min_y ≤ hd.y ∧ hd.y ≤ s.max_y)
    ∧
    (∀ (f : Frog) (delta activity : ℝ) (r : FrogRand),
      f.state = FrogSt.jump → 0 < f.jump_duration → 0 ≤ f.jump_height →
      0 ≤ f.state_time + delta →
      (frogUpdate f delta activity r).y ≤ f.jump_start_y)
    ∧
    (∀ (f : Frog) (r : FrogRand),
      f.size / 2 ≤ f.width - f.size / 2 →
      f.size / 2 ≤ (frogStartJump f r).jump_target_x ∧
      (frogStartJump f r).jump_target_x ≤ f.width - f.size / 2) := by
  refine ⟨?_, ?_, ?_, ?_⟩
  · intro b delta activity r ticks hw hh
    rw [birdUpdate_position]
    exact ⟨le_max_left _ _, max_le hw (min_le_right _ _),
           le_max_left _ _, max_le hh (min_le_right _ _)⟩
  · intro s delta activity nt r hup hin hnd hmin
    rcases snakeUpdate_cases hup with ⟨hc, _⟩ | ⟨hc, _⟩ | ⟨_, _, hm⟩
    · exact absurd hc hin
    · exact absurd hc hnd
    · rcases snakeMove_some hm with ⟨hd, tl, dir, hseg, hn, rfl⟩
      rcases snakePhase_fields s delta with ⟨hf1, hf2, hf3, hf4, hf5, hf6, hf7⟩
      have hy : s.min_y ≤ (snakeNewHead (snakePhase s delta) delta activity hd dir).y ∧
          (snakeNewHead (snakePhase s delta) delta activity hd dir).y ≤ s.max_y := by
        unfold snakeNewHead
        dsimp only
        rw [hf5, hf6]
        exact ⟨le_max_right _ _, max_le (min_le_right _ _) hmin⟩
      dsimp only
      split
      · exact ⟨_, _, rfl, hy.1, hy.2⟩
      · exact ⟨_, _, rfl, hy.1, hy.2⟩
  · intro f delta activity r hstate hjd hjh hst
    unfold frogUpdate
    dsimp only
    rw [hstate]
    by_cases hp : (f.state_time + delta) / f.jump_duration ≤ 1
    · rw [if_pos hp]
      have hsin : 0 ≤ Real.sin ((f.state_time + delta) / f.jump_duration * Real.pi) := by
        apply Real.sin_nonneg_of_nonneg_of_le_pi
        · exact mul_nonneg (div_nonneg hst (le_of_lt hjd)) (le_of_lt Real.pi_pos)
        · calc (f.state_time + delta) / f.jump_duration * Real.pi
              ≤ 1 * Real.pi := by
                apply mul_le_mul_of_nonneg_right hp (le_of_lt Real.pi_pos)
            _ = Real.pi := one_mul _
      split
      · dsimp only
        exact sub_le_self _ (mul_nonneg hjh hsin)
      · dsimp only
        exact sub_le_self _ (mul_nonneg hjh hsin)
    · rw [if_neg hp]
      split
      · exact le_refl _
      · exact le_refl _
  · intro f r hsz
    unfold frogStartJump
    dsimp only
    exact ⟨le_max_left _ _, max_le hsz (min_le_left _ _)⟩

theorem frogUpdate_jump_le {f : Frog} (delta activity : ℝ) (r : FrogRand)
    (hstate : f.state = FrogSt.jump)
    (hp : (f.state_time + delta) / f.jump_duration ≤ 1) :
    (frogUpdate f delta activity r).y =
      f.jump_start_y - f.jump_height *
        Real.sin ((f.state_time + delta) / f.jump_duration * Real.pi) ∧
    (frogUpdate f delta activity r).state = FrogSt.jump := by
  unfold frogUpdate
  dsimp only
  rw [hstate, if_pos hp]
  split
  · exact ⟨rfl, rfl⟩
  · exact ⟨rfl, rfl⟩

theorem frogUpdate_jump_gt {f : Frog} (delta activity : ℝ) (r : FrogRand)
    (hstate : f.state = FrogSt.jump)
    (hp : ¬ ((f.state_time + delta) / f.jump_duration ≤ 1)) :
    (frogUpdate f delta activity r).y = f.jump_start_y ∧
    (frogUpdate f delta activity r).state = FrogSt.rest ∧
    (frogUpdate f delta activity r).state_time = 0 := by
  unfold frogUpdate
  dsimp only
  rw [hstate, if_neg hp]
  split
  · exact ⟨rfl, rfl, rfl⟩
  · exact ⟨rfl, rfl, rfl⟩

/-- C4: for a Frog in the jump state with post-increment progress
`(state_time + delta) / jump_duration ≤ 1`, `update` sets
`y = jump_start_y - jump_height * sin(progress * pi)`
(`src/ecosystem/frog.py`, lines 66-70): displacement 0 at progress 0 and 1
and `-jump_height` at progress 1/2; once progress exceeds 1 the frog
returns to the rest state with `y = jump_start_y` and `state_time = 0`
(lines 71-74). -/
theorem frog_jump_arc (f : Frog) (delta activity : ℝ) (r : FrogRand)
    (hstate : f.state = FrogSt.jump) (hjd : 0 < f.jump_duration) :
    ((f.state_time + delta) / f.jump_duration ≤ 1 →
      (frogUpdate f delta activity r).y =
        f.jump_start_y - f.jump_height *
          Real.sin ((f.state_time + delta) / f.jump_duration * Real.pi) ∧
      ((f.state_time + delta) / f.jump_duration = 0 →
        (frogUpdate f delta activity r).y = f.jump_start_y) ∧
      ((f.state_time + delta) / f.jump_duration = 1 →
        (frogUpdate f delta activity r).y = f.jump_start_y) ∧
      ((f.state_time + delta) / f.jump_duration = 1 / 2 →
        (frogUpdate f delta activity r).y = f.jump_start_y - f.jump_height)) ∧
    (1 < (f.state_time + delta) / f.jump_duration →
      (frogUpdate f delta activity r).state = FrogSt.rest ∧
      (frogUpdate f delta activity r).y = f.jump_start_y ∧
      (frogUpdate f delta activity r).state_time = 0) := by
  constructor
  · intro hp
    obtain ⟨hy, -⟩ := frogUpdate_jump_le delta activity r hstate hp
    refine ⟨hy, ?_, ?_, ?_⟩
    · intro h0
      rw [hy, h0]
      simp
    · intro h1
      rw [hy, h1]
      simp [Real.sin_pi]
    · intro h2
      rw [hy, h2]
      have hhalf : (1 / 2 : ℝ) * Real.pi = Real.pi / 2 := by ring
      rw [hhalf, Real.sin_pi_div_two, mul_one]
  · intro hp
    obtain ⟨hy, hs, ht⟩ := frogUpdate_jump_gt delta activity r hstate (not_le.mpr hp)
    exact ⟨hs, hy, ht⟩

theorem birdUpdate_velocity_noturn {b : Bird} {delta : ℝ} (activity : ℝ) {r : BirdRand}
    (ticks : ℝ) (hta : ¬ (0.01 < |birdTa b r|)) :
    (birdUpdate b delta activity r ticks).velocity = birdReflect b delta activity := by
  show (birdTurn b delta (birdReflect b delta activity) (birdTa b r)).1 = _
  rw [birdTurn, if_neg hta]

/-- C3 (amended): when the tentative position
`position + velocity * activity * delta * 60` crosses a bound of the
bird's band, `update` reflects the corresponding velocity component and
then clamps the position into the band (`src/ecosystem/bird.py`,
lines 81-89).  The reflected component survives to the post-update
velocity whenever no turn applies this tick
(`|target angle after the turn draw| ≤ 0.01`); an in-progress turn further
rotates the reflected velocity (lines 94-100). -/
theorem bird_reflect_then_clamp (b : Bird) (delta activity : ℝ) (r : BirdRand) (ticks : ℝ)
    (hta : |birdTa b r| ≤ 0.01) :
    (b.width < (birdTentative b delta activity).x →
      (birdUpdate b delta activity r ticks).velocity.x = -b.velocity.x) ∧
    ((birdTentative b delta activity).x < 0 →
      (birdUpdate b delta activity r ticks).velocity.x = -b.velocity.x) ∧
    (b.max_height < (birdTentative b delta activity).y →
      (birdUpdate b delta activity r ticks).velocity.y = -b.velocity.y) ∧
    ((birdTentative b delta activity).y < 0 →
      (birdUpdate b delta activity r ticks).velocity.y = -b.velocity.y) ∧
    (0 ≤ b.width → (birdUpdate b delta activity r ticks).position.x ≤ b.width) ∧
    (0 ≤ b.max_height → (birdUpdate b delta activity r ticks).position.y ≤ b.max_height) := by
  rw [birdUpdate_velocity_noturn activity ticks (not_lt.mpr hta), birdUpdate_position,
      birdReflect]
  refine ⟨?_, ?_, ?_, ?_, ?_, ?_⟩
  · intro hc
    dsimp only
    rw [if_pos (Or.inr hc)]
  · intro hc
    dsimp only
    rw [if_pos (Or.inl hc)]
  · intro hc
    dsimp only
    rw [if_pos (Or.inr hc)]
  · intro hc
    dsimp only
    rw [if_pos (Or.inl hc)]
  · intro hw
    exact max_le hw (min_le_right _ _)
  · intro hh
    exact max_le hh (min_le_right _ _)

/-- C7 (amended): `Bird.draw` and `Snake.draw` leave the entity state
unchanged; `Frog.draw` is not a pure read — it writes the derived visual
scale `0.5 + (y / height) * 0.5` into the `scale` field
(`src/ecosystem/frog.py`, line 105) and mutates nothing else. -/
theorem draw_state_effects :
    (∀ b : Bird, birdDrawState b = b) ∧
    (∀ s : Snake, snakeDrawState s = s) ∧
    (∀ f : Frog, frogDrawState f = { f with scale := 0.5 + (f.y / f.height) * 0.5 }) :=
  ⟨fun _ => rfl, fun _ => rfl, fun _ => rfl⟩

/-- C9 (amended): `Bird.update` is a deterministic function of the
starting state, `delta`, `activity`, the consumed random draws and the
ambient wall-clock value: two calls that agree on everything but the
clock agree on every resulting field except `wing_angle`, which is the
pure function `sin(ticks * wing_speed * 0.001) * 45` of the clock
(`src/ecosystem/bird.py`, line 102).  The code reads that clock from the
global `pygame.time.get_ticks()` and draws from the ambient `random`
module, not from an injected source. -/
theorem bird_update_determinism (b : Bird) (delta activity : ℝ) (r : BirdRand)
    (t1 t2 : ℝ) :
    birdUpdate b delta activity r t1 =
      { birdUpdate b delta activity r t2 with
        wing_angle := Real.sin (t1 * b.wing_speed * 0.001) * 45 } := rfl

/-- Concrete active snake used to evaluate one update: head `(0, 70)`,
target `(50, 70)`, band `[65, 80]`, area `100 × 100`. -/
noncomputable def snakeA : Snake :=
  { segments := [⟨0, 70⟩]
    direction := ⟨1, 0⟩
    min_y := 65
    max_y := 80
    speed := 2
    length := 50
    target := ⟨50, 70⟩
    state := SnakeSt.active
    scale := 1
    alive := true
    width := 100
    height := 100 }

/-- Result of one update of `snakeA` with `delta = 1`, `activity = 1`. -/
noncomputable def snakeA' : Snake :=
  { snakeA with direction := ⟨1, 0⟩, segments := [⟨120, 70⟩, ⟨0, 70⟩] }

theorem snakeA_sub : Vec2.sub snakeA.target ⟨0, 70⟩ = (⟨50, 0⟩ : Vec2) := by
  show Vec2.sub ⟨50, 70⟩ ⟨0, 70⟩ = _
  unfold Vec2.sub
  norm_num

theorem snakeA_retarget : snakeRetarget snakeA ⟨0, 70⟩ ⟨0, 0⟩ = snakeA.target := by
  unfold snakeRetarget
  rw [snakeA_sub, if_neg]
  rw [Vec2.length_axis]
  norm_num

theorem snakeA_norm :
    Vec2.normalize? (Vec2.sub (snakeRetarget snakeA ⟨0, 70⟩ ⟨0, 0⟩) ⟨0, 70⟩) =
      some ⟨1, 0⟩ := by
  rw [snakeA_retarget, snakeA_sub]
  exact Vec2.normalize?_axis_pos 50 (by norm_num)

theorem snakeA_newHead :
    snakeNewHead snakeA 1 1 ⟨0, 70⟩ ⟨1, 0⟩ = (⟨120, 70⟩ : Vec2) := by
  unfold snakeNewHead
  dsimp only
  rw [show snakeA.speed = 2 from rfl, show snakeA.max_y = 80 from rfl,
      show snakeA.min_y = 65 from rfl]
  unfold Vec2.add Vec2.smul
  dsimp only
  refine Vec2.ext ?_ ?_
  · norm_num
  · norm_num [min_def, max_def]

theorem snakeA_phase : snakePhase snakeA 1 = snakeA :=
  snakePhase_state_other 1 (fun h => nomatch h) (fun h => nomatch h)

theorem snakeA_eval : snakeUpdate snakeA 1 1 ⟨0, 0⟩ = some snakeA' := by
  unfold snakeUpdate
  rw [if_neg (show ¬ (snakeA.state = SnakeSt.inactive) from fun h => nomatch h),
      snakeA_phase, if_neg]
  · unfold snakeMove
    rw [show snakeA.segments = [⟨0, 70⟩] from rfl]
    dsimp only
    rw [snakeA_norm]
    dsimp only
    rw [snakeA_retarget, snakeA_newHead]
    rw [if_neg (show ¬ (snakeA.length < ([⟨120, 70⟩, ⟨0, 70⟩] : List Vec2).length) by
          rw [show snakeA.length = 50 from rfl]
          norm_num)]
    rfl
  · rintro ⟨h, -⟩
    exact absurd h (fun hc => nomatch hc)

/-- C1 counterexample: `snakeA` is active and live, its head starts inside
the area, and one `update(1, 1)` moves the head to `x = 120 > width = 100`:
`Snake.update` clamps only `y`, so the claimed band `[0, width]` for the
head's `x` is violated. -/
theorem snake_head_x_escapes :
    snakeA.state = SnakeSt.active ∧ snakeA.alive = true ∧
    snakeUpdate snakeA 1 1 ⟨0, 0⟩ = some snakeA' ∧
    snakeA'.segments.head? = some ⟨120, 70⟩ ∧
    ¬ ((⟨120, 70⟩ : Vec2).x ≤ snakeA.width) := by
  refine ⟨rfl, rfl, snakeA_eval, rfl, ?_⟩
  show ¬ ((120 : ℝ) ≤ (100 : ℝ))
  norm_num

/-- Witness for C2 at a concrete active snake and a successful update. -/
theorem snake_no_spontaneous_death_witness :
    snakeUpdate snakeA 1 1 ⟨0, 0⟩ = some snakeA' ∧ snakeA.state ≠ SnakeSt.despawn ∧
    snakeA'.alive = snakeA.alive ∧
    (snakeA'.state = SnakeSt.inactive ↔ snakeA.state = SnakeSt.inactive) := by
  have h := snake_no_spontaneous_death snakeA 1 1 ⟨0, 0⟩ snakeA' snakeA_eval
    (fun hc => nomatch hc)
  refine ⟨snakeA_eval, ?_, h.1, h.2.1⟩
  intro hc
  exact nomatch hc

/-- Witness for C10 at a concrete snake and a successful update. -/
theorem snake_segments_nonempty_witness :
    snakeA.segments ≠ [] ∧ snakeUpdate snakeA 1 1 ⟨0, 0⟩ = some snakeA' ∧
    snakeA'.segments ≠ [] := by
  refine ⟨?_, snakeA_eval, ?_⟩
  · show ([⟨0, 70⟩] : List Vec2) ≠ []
    simp
  · exact snake_segments_nonempty.2.1 snakeA 1 1 ⟨0, 0⟩ snakeA'
      (by show ([⟨0, 70⟩] : List Vec2) ≠ []; simp) snakeA_eval

/-- Concrete spawning snake: like `snakeA` but in the spawn state with
scale `0.1`. -/
noncomputable def snakeS : Snake := { snakeA with state := SnakeSt.spawn, scale := 0.1 }

/-- Result of one update of `snakeS` with `delta = 0.3`, `activity = 1`. -/
noncomputable def snakeS' : Snake :=
  { snakeS with scale := 0.4, direction := ⟨1, 0⟩, segments := [⟨36, 70⟩, ⟨0, 70⟩] }

theorem snakeS_phase : snakePhase snakeS 0.3 = { snakeS with scale := 0.4 } := by
  unfold snakePhase
  rw [if_pos (show snakeS.state = SnakeSt.spawn from rfl)]
  have hm : min 1.0 (snakeS.scale + 0.3) = (0.4 : ℝ) := by
    rw [show snakeS.scale = 0.1 from rfl]
    norm_num [min_def]
  rw [hm, if_neg (by norm_num)]
  rfl

theorem snakeS_retarget :
    snakeRetarget { snakeS with scale := 0.4 } ⟨0, 70⟩ ⟨0, 0⟩ = snakeA.target := by
  unfold snakeRetarget
  rw [show ({ snakeS with scale := 0.4 } : Snake).target = snakeA.target from rfl,
      snakeA_sub, if_neg]
  rw [Vec2.length_axis]
  norm_num

theorem snakeS_newHead :
    snakeNewHead { snakeS with scale := 0.4 } 0.3 1 ⟨0, 70⟩ ⟨1, 0⟩ = (⟨36, 70⟩ : Vec2) := by
  unfold snakeNewHead
  dsimp only
  rw [show ({ snakeS with scale := 0.4 } : Snake).speed = 2 from rfl,
      show ({ snakeS with scale := 0.4 } : Snake).max_y = 80 from rfl,
      show ({ snakeS with scale := 0.4 } : Snake).min_y = 65 from rfl]
  unfold Vec2.add Vec2.smul
  dsimp only
  refine Vec2.ext ?_ ?_
  · norm_num
  · norm_num [min_def, max_def]

theorem snakeS_eval : snakeUpdate snakeS 0.3 1 ⟨0, 0⟩ = some snakeS' := by
  unfold snakeUpdate
  rw [if_neg (show ¬ (snakeS.state = SnakeSt.inactive) from fun h => nomatch h), snakeS_phase,
      if_neg (by rintro ⟨h, -⟩; exact nomatch h)]
  unfold snakeMove
  rw [show ({ snakeS with scale := 0.4 } : Snake).segments = [⟨0, 70⟩] from rfl]
  dsimp only
  rw [show Vec2.normalize?
        (Vec2.sub (snakeRetarget { snakeS with scale := 0.4 } ⟨0, 70⟩ ⟨0, 0⟩) ⟨0, 70⟩) =
        some ⟨1, 0⟩ from by
      rw [snakeS_retarget, snakeA_sub]
      exact Vec2.normalize?_axis_pos 50 (by norm_num)]
  dsimp only
  rw [snakeS_retarget, snakeS_newHead]
  rw [if_neg (show ¬ (({ snakeS with scale := 0.4 } : Snake).length <
        ([⟨36, 70⟩, ⟨0, 70⟩] : List Vec2).length) by
      rw [show ({ snakeS with scale := 0.4 } : Snake).length = 50 from rfl]
      norm_num)]
  rfl

/-- Witness for C6 at a concrete spawning snake and a successful update. -/
theorem snake_scale_ramp_witness :
    snakeUpdate snakeS 0.3 1 ⟨0, 0⟩ = some snakeS' ∧ snakeS.state = SnakeSt.spawn ∧
    snakeS'.scale = min 1.0 (snakeS.scale + 0.3) ∧
    (snakeS'.state = SnakeSt.active ↔ min 1.0 (snakeS.scale + 0.3) = 1.0) := by
  have h := (snake_scale_ramp snakeS 0.3 1 ⟨0, 0⟩ snakeS' snakeS_eval).1 rfl
  exact ⟨snakeS_eval, rfl, h.1, h.2⟩

/-- Concrete despawning snake about to complete its despawn. -/
noncomputable def snakeD : Snake := { snakeA with state := SnakeSt.despawn, scale := 0.05 }

/-- Result of one update of `snakeD` with `delta = 1`: the despawn
completes and the update returns before touching the segments. -/
noncomputable def snakeD' : Snake :=
  { snakeD with scale := 0, alive := false, state := SnakeSt.inactive }

theorem snakeD_eval : snakeUpdate snakeD 1 1 ⟨0, 0⟩ = some snakeD' := by
  unfold snakeUpdate
  rw [if_neg (show ¬ (snakeD.state = SnakeSt.inactive) from fun h => nomatch h)]
  have hph : snakePhase snakeD 1 = { snakeD with scale := 0 } := by
    unfold snakePhase
    rw [if_neg (show ¬ (snakeD.state = SnakeSt.spawn) from fun h => nomatch h),
        if_pos (show snakeD.state = SnakeSt.despawn from rfl)]
    have hmx : max 0.0 (snakeD.scale - 1) = (0 : ℝ) := by
      rw [show snakeD.scale = 0.05 from rfl]
      norm_num [max_def]
    rw [hmx]
  rw [hph, if_pos ⟨rfl, by norm_num⟩]
  rfl

/-- C5 counterexample: `snakeD` is not in the inactive state, yet its
update (which completes a despawn) returns early at
`src/ecosystem/snake.py` line 92 and pushes no new head: the segment list
is unchanged, against the claim that every update of a non-inactive snake
pushes the newly computed head. -/
theorem snake_despawn_no_push :
    snakeD.state ≠ SnakeSt.inactive ∧
    snakeUpdate snakeD 1 1 ⟨0, 0⟩ = some snakeD' ∧
    snakeD'.segments = snakeD.segments ∧ snakeD'.segments.length = 1 := by
  refine ⟨?_, snakeD_eval, rfl, rfl⟩
  intro h
  exact nomatch h

/-- Snake with `m` copies of the head segment, used to iterate updates
with `activity = 0` so that the head stays in place. -/
noncomputable def snakeRep (m : ℕ) : Snake :=
  { snakeA with segments := List.replicate m ⟨0, 70⟩ }

theorem dropLast_replicate {α : Type} (n : ℕ) (a : α) :
    (List.replicate (n + 1) a).dropLast = List.replicate n a := by
  induction n with
  | zero => rfl
  | succ k ih =>
    rw [List.replicate_succ, List.replicate_succ, List.dropLast_cons₂,
        ← List.replicate_succ, ih, ← List.replicate_succ]

theorem snakeRep_retarget (m : ℕ) (nt : Vec2) :
    snakeRetarget (snakeRep m) ⟨0, 70⟩ nt = snakeA.target := by
  unfold snakeRetarget
  rw [show (snakeRep m).target = snakeA.target from rfl, snakeA_sub, if_neg]
  rw [Vec2.length_axis]
  norm_num

theorem snakeRep_newHead (m : ℕ) :
    snakeNewHead (snakeRep m) 1 0 ⟨0, 70⟩ ⟨1, 0⟩ = (⟨0, 70⟩ : Vec2) := by
  unfold snakeNewHead
  dsimp only
  rw [show (snakeRep m).speed = 2 from rfl, show (snakeRep m).max_y = 80 from rfl,
      show (snakeRep m).min_y = 65 from rfl]
  unfold Vec2.add Vec2.smul
  dsimp only
  refine Vec2.ext ?_ ?_
  · norm_num
  · norm_num [min_def, max_def]

theorem snakeRep_eval (m : ℕ) (h1 : 1 ≤ m) (h2 : m ≤ 50) (nt : Vec2) :
    snakeUpdate (snakeRep m) 1 0 nt = some (snakeRep (min (m + 1) 50)) := by
  obtain ⟨k, rfl⟩ : ∃ k, m = k + 1 := ⟨m - 1, by omega⟩
  unfold snakeUpdate
  rw [if_neg (show ¬ ((snakeRep (k + 1)).state = SnakeSt.inactive) from fun h => nomatch h),
      snakePhase_state_other 1
        (show ¬ ((snakeRep (k + 1)).state = SnakeSt.spawn) from fun h => nomatch h)
        (show ¬ ((snakeRep (k + 1)).state = SnakeSt.despawn) from fun h => nomatch h),
      if_neg (by rintro ⟨h, -⟩; exact nomatch h)]
  unfold snakeMove
  rw [show (snakeRep (k + 1)).segments = ⟨0, 70⟩ :: List.replicate k ⟨0, 70⟩ from by
        show List.replicate (k + 1) (⟨0, 70⟩ : Vec2) = _
        rw [List.replicate_succ]]
  dsimp only
  rw [show Vec2.normalize? (Vec2.sub (snakeRetarget (snakeRep (k + 1)) ⟨0, 70⟩ nt) ⟨0, 70⟩) =
        some ⟨1, 0⟩ from by
      rw [snakeRep_retarget, snakeA_sub]
      exact Vec2.normalize?_axis_pos 50 (by norm_num)]
  dsimp only
  rw [snakeRep_retarget, snakeRep_newHead]
  rw [show (snakeRep (k + 1)).length = 50 from rfl]
  by_cases hc : 50 < ((⟨0, 70⟩ : Vec2) :: ⟨0, 70⟩ :: List.replicate k ⟨0, 70⟩).length
  · rw [if_pos hc]
    simp only [List.length_cons, List.length_replicate] at hc
    have hk : k = 49 := by omega
    subst hk
    rw [show ((⟨0, 70⟩ : Vec2) :: ⟨0, 70⟩ :: List.replicate 49 ⟨0, 70⟩) =
          List.replicate 51 ⟨0, 70⟩ from by
        rw [show List.replicate 51 (⟨0, 70⟩ : Vec2) = ⟨0, 70⟩ :: List.replicate 50 ⟨0, 70⟩ from
              List.replicate_succ _ _,
            show List.replicate 50 (⟨0, 70⟩ : Vec2) = ⟨0, 70⟩ :: List.replicate 49 ⟨0, 70⟩ from
              List.replicate_succ _ _]]
    rw [dropLast_replicate 50]
    rw [show min (49 + 1 + 1) 50 = 50 from by omega]
    rfl
  · rw [if_neg hc]
    simp only [List.length_cons, List.length_replicate] at hc
    rw [show min (k + 1 + 1) 50 = k + 1 + 1 from by omega]
    rw [show ((⟨0, 70⟩ : Vec2) :: ⟨0, 70⟩ :: List.replicate k ⟨0, 70⟩) =
          List.replicate (k + 1 + 1) ⟨0, 70⟩ from by
        rw [show List.replicate (k + 1 + 1) (⟨0, 70⟩ : Vec2) =
              ⟨0, 70⟩ :: List.replicate (k + 1) ⟨0, 70⟩ from List.replicate_succ _ _,
            show List.replicate (k + 1) (⟨0, 70⟩ : Vec2) =
              ⟨0, 70⟩ :: List.replicate k ⟨0, 70⟩ from List.replicate_succ _ _]]
    rfl

theorem snakeRep_iter (k : ℕ) :
    ∀ (m : ℕ) (ts : ℕ → Vec2), 1 ≤ m → m ≤ 50 →
      snakeIter 1 0 ts k (snakeRep m) = some (snakeRep (min (m + k) 50)) := by
  induction k with
  | zero =>
    intro m ts h1 h2
    rw [snakeIter, show min (m + 0) 50 = m from by omega]
  | succ k ih =>
    intro m ts h1 h2
    rw [snakeIter, snakeRep_eval m h1 h2 (ts 0), Option.some_bind,
        ih (min (m + 1) 50) (fun n => ts (n + 1)) (by omega) (by omega),
        show min (min (m + 1) 50 + k) 50 = min (m + (k + 1)) 50 from by omega]

/-- Witness for C5: one successful update of the concrete `snakeA` pushes
the computed head, and `length + 5 = 55` successful updates of a
single-segment active snake leave exactly `length = 50` segments. -/
theorem snake_trail_witness :
    (snakeUpdate snakeA 1 1 ⟨0, 0⟩ = some snakeA' ∧ snakeA.state ≠ SnakeSt.inactive ∧
     ¬ snakeDespawnDone snakeA 1 ∧ snakeA.segments = [⟨0, 70⟩] ∧
     snakeA'.segments.head? = some (snakeNewHead snakeA 1 1 ⟨0, 70⟩ snakeA'.direction)) ∧
    ((snakeRep 1).state = SnakeSt.active ∧ (snakeRep 1).segments.length = 1 ∧
     1 ≤ (snakeRep 1).length ∧
     snakeIter 1 0 (fun _ => ⟨0, 0⟩) ((snakeRep 1).length + 5) (snakeRep 1) =
       some (snakeRep 50) ∧
     (snakeRep 50).segments.length = (snakeRep 1).length) := by
  have hnd : ¬ snakeDespawnDone snakeA 1 := by
    rintro ⟨h, -⟩
    exact nomatch h
  have hin : snakeA.state ≠ SnakeSt.inactive := fun h => nomatch h
  constructor
  · have h := (snake_trail.1 snakeA 1 1 ⟨0, 0⟩ snakeA' ⟨0, 70⟩ [] snakeA_eval hin hnd rfl).1
    exact ⟨snakeA_eval, hin, hnd, rfl, h⟩
  · have hit : snakeIter 1 0 (fun _ => ⟨0, 0⟩) ((snakeRep 1).length + 5) (snakeRep 1) =
        some (snakeRep 50) := by
      rw [show (snakeRep 1).length = 50 from rfl,
          snakeRep_iter (50 + 5) 1 (fun _ => ⟨0, 0⟩) (by omega) (by omega),
          show min (1 + (50 + 5)) 50 = 50 from by omega]
    have h := (snake_trail.2 (snakeRep 1) 1 0 (fun _ => ⟨0, 0⟩) (snakeRep 50) rfl
      (by show (List.replicate 1 (⟨0, 70⟩ : Vec2)).length = 1; simp)
      (by show (1 : ℕ) ≤ 50; omega) hit).1
    exact ⟨rfl, by show (List.replicate 1 (⟨0, 70⟩ : Vec2)).length = 1; simp,
      by show (1 : ℕ) ≤ 50; omega, hit, h⟩

/-- Concrete mid-air frog: jump state, `state_time = 0`,
`jump_duration = 1/2`, resting at `y = 80` in a `100 × 100` area. -/
noncomputable def frogW : Frog :=
  { x := 50
    y := 80
    width := 100
    height := 100
    size := 20
    jump_height := 60
    jump_duration := 1 / 2
    rest_duration := 2
    state := FrogSt.jump
    state_time := 0
    jump_start_y := 80
    jump_target_x := 50
    scale := 0.1
    alive := true }

/-- C7 counterexample: drawing `frogW` changes its state — `Frog.draw`
writes `scale = 0.5 + (y / height) * 0.5 = 0.9`, overwriting the stored
`0.1`, so `draw` is not a pure read for frogs. -/
theorem frog_draw_mutates : frogDrawState frogW ≠ frogW := by
  intro h
  have hs := congrArg Frog.scale h
  rw [show (frogDrawState frogW).scale = 0.5 + (80 / 100) * 0.5 from rfl,
      show frogW.scale = 0.1 from rfl] at hs
  norm_num at hs

/-- Witness for C4 at the concrete `frogW` with `delta = 0.25`: progress
is exactly `1/2` and the frog sits at the arc's peak,
`jump_start_y - jump_height`. -/
theorem frog_jump_arc_witness :
    frogW.state = FrogSt.jump ∧ 0 < frogW.jump_duration ∧
    (frogW.state_time + 0.25) / frogW.jump_duration ≤ 1 ∧
    (frogUpdate frogW 0.25 1 ⟨100, 0, 0, 1⟩).y =
      frogW.jump_start_y - frogW.jump_height := by
  have hjd : 0 < frogW.jump_duration := by
    rw [show frogW.jump_duration = 1 / 2 from rfl]
    norm_num
  have hp : (frogW.state_time + 0.25) / frogW.jump_duration ≤ 1 := by
    rw [show frogW.state_time = 0 from rfl, show frogW.jump_duration = 1 / 2 from rfl]
    norm_num
  have hhalf : (frogW.state_time + 0.25) / frogW.jump_duration = 1 / 2 := by
    rw [show frogW.state_time = 0 from rfl, show frogW.jump_duration = 1 / 2 from rfl]
    norm_num
  exact ⟨rfl, hjd, hp,
    ((frog_jump_arc frogW 0.25 1 ⟨100, 0, 0, 1⟩ rfl hjd).1 hp).2.2.2 hhalf⟩

/-- Concrete bird with no turn in progress, heading right toward the
boundary of a `100 × 100` area (`max_height = 60`). -/
noncomputable def birdW : Bird :=
  { position := ⟨50, 30⟩
    velocity := ⟨2, 0⟩
    size := 20
    wing_angle := 0
    wing_speed := 10
    turn_chance := 0.02
    target_angle := 0
    turn_speed := 1
    alive := true
    x := 50
    y := 30
    width := 100
    max_height := 60 }

theorem birdW_tent : birdTentative birdW 1 1 = ⟨170, 30⟩ := by
  unfold birdTentative
  rw [show birdW.position = ⟨50, 30⟩ from rfl, show birdW.velocity = ⟨2, 0⟩ from rfl]
  unfold Vec2.add Vec2.smul
  dsimp only
  refine Vec2.ext ?_ ?_ <;> norm_num

theorem birdW_ta : birdTa birdW ⟨0.5, 0, 1⟩ = 0 := by
  unfold birdTa
  rw [show (⟨0.5, 0, 1⟩ : BirdRand).r_turn = 0.5 from rfl,
      show birdW.turn_chance = 0.02 from rfl, if_neg (by norm_num)]
  rfl

/-- Witness for C3 at the concrete `birdW`: no turn in progress, the
tentative position crosses the right boundary, and the post-update
velocity has its x component exactly flipped. -/
theorem bird_reflect_then_clamp_witness :
    |birdTa birdW ⟨0.5, 0, 1⟩| ≤ 0.01 ∧
    birdW.width < (birdTentative birdW 1 1).x ∧
    (birdUpdate birdW 1 1 ⟨0.5, 0, 1⟩ 0).velocity.x = -birdW.velocity.x := by
  have habs : |birdTa birdW ⟨0.5, 0, 1⟩| ≤ 0.01 := by
    rw [birdW_ta]
    norm_num
  have hcross : birdW.width < (birdTentative birdW 1 1).x := by
    rw [birdW_tent, show birdW.width = 100 from rfl]
    show (100 : ℝ) < 170
    norm_num
  exact ⟨habs, hcross, (bird_reflect_then_clamp birdW 1 1 ⟨0.5, 0, 1⟩ 0 habs).1 hcross⟩

/-- C9 counterexample: two updates of `birdW` from the same state with the
same `delta`, `activity` and random draws but different ambient clock
values produce different states (the wing angles differ), so the update is
not a function of state, inputs and injected randomness alone. -/
theorem bird_update_reads_clock :
    birdUpdate birdW 1 1 ⟨0.5, 0, 1⟩ 0 ≠ birdUpdate birdW 1 1 ⟨0.5, 0, 1⟩ 1 := by
  intro h
  have hw := congrArg Bird.wing_angle h
  rw [birdUpdate_wing, birdUpdate_wing, show birdW.wing_speed = 10 from rfl] at hw
  rw [show (0 : ℝ) * 10 * 0.001 = 0 by norm_num, Real.sin_zero, zero_mul] at hw
  have h1 : 0 < Real.sin (1 * (10 : ℝ) * 0.001) := by
    rw [show (1 : ℝ) * 10 * 0.001 = 0.01 by norm_num]
    apply Real.sin_pos_of_pos_of_lt_pi (by norm_num)
    linarith [Real.pi_gt_three]
  nlinarith [h1, hw]

/-- Witness for C1 at concrete entities of each kind. -/
theorem band_invariants_witness :
    ((0 : ℝ) ≤ birdW.width ∧ (0 : ℝ) ≤ birdW.max_height ∧
     0 ≤ (birdUpdate birdW 1 1 ⟨0.5, 0, 1⟩ 0).position.x ∧
     (birdUpdate birdW 1 1 ⟨0.5, 0, 1⟩ 0).position.x ≤ birdW.width) ∧
    (snakeA.min_y ≤ snakeA.max_y ∧
     ∃ hd tl, snakeA'.segments = hd :: tl ∧ snakeA.min_y ≤ hd.y ∧ hd.y ≤ snakeA.max_y) ∧
    ((frogUpdate frogW 0.25 1 ⟨100, 0, 0, 1⟩).y ≤ frogW.jump_start_y) ∧
    (frogW.size / 2 ≤ (frogStartJump frogW ⟨100, 0, 0, 1⟩).jump_target_x ∧
     (frogStartJump frogW ⟨100, 0, 0, 1⟩).jump_target_x ≤ frogW.width - frogW.size / 2) := by
  have hw : (0 : ℝ) ≤ birdW.width := by
    rw [show birdW.width = 100 from rfl]
    norm_num
  have hh : (0 : ℝ) ≤ birdW.max_height := by
    rw [show birdW.max_height = 60 from rfl]
    norm_num
  have hb := band_invariants.1 birdW 1 1 ⟨0.5, 0, 1⟩ 0 hw hh
  have hmm : snakeA.min_y ≤ snakeA.max_y := by
    rw [show snakeA.min_y = 65 from rfl, show snakeA.max_y = 80 from rfl]
    norm_num
  have hs := band_invariants.2.1 snakeA 1 1 ⟨0, 0⟩ snakeA' snakeA_eval
    (fun h => nomatch h) (by rintro ⟨h, -⟩; exact nomatch h) hmm
  have hf := band_invariants.2.2.1 frogW 0.25 1 ⟨100, 0, 0, 1⟩ rfl
    (by rw [show frogW.jump_duration = 1 / 2 from rfl]; norm_num)
    (by rw [show frogW.jump_height = 60 from rfl]; norm_num)
    (by rw [show frogW.state_time = 0 from rfl]; norm_num)
  have hg := band_invariants.2.2.2 frogW ⟨100, 0, 0, 1⟩
    (by rw [show frogW.size = 20 from rfl, show frogW.width = 100 from rfl]; norm_num)
  exact ⟨⟨hw, hh, hb.1, hb.2.1⟩, ⟨hmm, hs⟩, hf, hg⟩

/-- Concrete bird with a turn in progress (`target_angle = pi/4`) whose
tentative position crosses the right boundary. -/
noncomputable def birdT : Bird :=
  { position := ⟨90, 50⟩
    velocity := ⟨2, 0⟩
    size := 20
    wing_angle := 0
    wing_speed := 10
    turn_chance := 0.02
    target_angle := Real.pi / 4
    turn_speed := 10
    alive := true
    x := 90
    y := 50
    width := 100
    max_height := 60 }

theorem birdT_tent : birdTentative birdT 1 1 = ⟨210, 50⟩ := by
  unfold birdTentative
  rw [show birdT.position = ⟨90, 50⟩ from rfl, show birdT.velocity = ⟨2, 0⟩ from rfl]
  unfold Vec2.add Vec2.smul
  dsimp only
  refine Vec2.ext ?_ ?_ <;> norm_num

theorem birdT_reflect : birdReflect birdT 1 1 = ⟨-2, 0⟩ := by
  unfold birdReflect
  rw [birdT_tent, show birdT.width = 100 from rfl, show birdT.max_height = 60 from rfl,
      show birdT.velocity = ⟨2, 0⟩ from rfl]
  rw [if_pos (Or.inr (show (100 : ℝ) < (⟨210, 50⟩ : Vec2).x by norm_num)),
      if_neg (show ¬ (((⟨210, 50⟩ : Vec2)).y < 0 ∨ (60 : ℝ) < ((⟨210, 50⟩ : Vec2)).y) by
        show ¬ ((50 : ℝ) < 0 ∨ (60 : ℝ) < 50)
        norm_num)]

theorem birdT_ta : birdTa birdT ⟨0.5, 0, 1⟩ = Real.pi / 4 := by
  unfold birdTa
  rw [show (⟨0.5, 0, 1⟩ : BirdRand).r_turn = 0.5 from rfl,
      show birdT.turn_chance = 0.02 from rfl, if_neg (by norm_num)]
  rfl

theorem birdT_velocity :
    (birdUpdate birdT 1 1 ⟨0.5, 0, 1⟩ 0).velocity = Vec2.rotate ⟨-2, 0⟩ (Real.pi / 4) := by
  show (birdTurn birdT 1 (birdReflect birdT 1 1) (birdTa birdT ⟨0.5, 0, 1⟩)).1 = _
  rw [birdT_reflect, birdT_ta]
  unfold birdTurn
  rw [abs_of_pos (show (0 : ℝ) < Real.pi / 4 by positivity)]
  rw [if_pos (show (0.01 : ℝ) < Real.pi / 4 by nlinarith [Real.pi_gt_three])]
  rw [show birdT.turn_speed = 10 from rfl, show (10 : ℝ) * 1 = 10 by norm_num]
  rw [min_eq_left (show Real.pi / 4 ≤ 10 by nlinarith [Real.pi_le_four])]
  rw [if_pos (show (0 : ℝ) < Real.pi / 4 by positivity), mul_one]

/-- C3 counterexample: `birdT` crosses the right boundary, but its
in-progress turn rotates the reflected velocity by `pi/4`, so the
post-update x velocity is `-sqrt 2`, not the flipped `-2` the claim
demands of every boundary-crossing update. -/
theorem bird_reflect_rotated :
    birdT.width < (birdTentative birdT 1 1).x ∧
    (birdUpdate birdT 1 1 ⟨0.5, 0, 1⟩ 0).velocity.x ≠ -birdT.velocity.x := by
  constructor
  · rw [birdT_tent, show birdT.width = 100 from rfl]
    show (100 : ℝ) < 210
    norm_num
  · rw [birdT_velocity]
    show (Vec2.rotate ⟨-2, 0⟩ (Real.pi / 4)).x ≠ -(2 : ℝ)
    unfold Vec2.rotate
    dsimp only
    rw [Real.cos_pi_div_four, Real.sin_pi_div_four]
    intro hc
    have hs : Real.sqrt 2 = 2 := by linarith [hc]
    have hsq := Real.sq_sqrt (show (0 : ℝ) ≤ 2 by norm_num)
    rw [hs] at hsq
    norm_num at hsq

theorem normalize?_zero : Vec2.normalize? ⟨0, 0⟩ = none := by
  rw [Vec2.normalize?, if_pos Vec2.length_zero]

/-- Concrete active snake whose head sits within distance 10 of its target
on integer coordinates, so a retarget draw landing exactly on the head is
possible. -/
noncomputable def snakeC : Snake := { snakeA with segments := [⟨5, 70⟩], target := ⟨8, 70⟩ }

/-- C8: at this reachable state, `Snake.update` retargets (the head is
within distance 3 < 10 of the target), the fresh random target coincides
with the head, and the zero-length head-to-target vector reaches
`Vector2.normalize` unguarded: the call raises `ValueError`
(`src/ecosystem/snake.py`, line 100), modelled as `none` — there is no
canonical fallback direction anywhere in the entity logic. -/
theorem snake_update_unguarded_normalize : snakeUpdate snakeC 1 1 ⟨5, 70⟩ = none := by
  unfold snakeUpdate
  rw [if_neg (show ¬ (snakeC.state = SnakeSt.inactive) from fun h => nomatch h),
      snakePhase_state_other 1
        (show ¬ (snakeC.state = SnakeSt.spawn) from fun h => nomatch h)
        (show ¬ (snakeC.state = SnakeSt.despawn) from fun h => nomatch h),
      if_neg (by rintro ⟨h, -⟩; exact nomatch h)]
  unfold snakeMove
  rw [show snakeC.segments = [⟨5, 70⟩] from rfl]
  dsimp only
  have hret : snakeRetarget snakeC ⟨5, 70⟩ ⟨5, 70⟩ = ⟨5, 70⟩ := by
    unfold snakeRetarget
    rw [show snakeC.target = ⟨8, 70⟩ from rfl,
        show Vec2.sub ⟨8, 70⟩ (⟨5, 70⟩ : Vec2) = (⟨3, 0⟩ : Vec2) from by
          unfold Vec2.sub
          refine Vec2.ext ?_ ?_ <;> norm_num,
        if_pos (by rw [Vec2.length_axis]; norm_num)]
  rw [show Vec2.normalize? (Vec2.sub (snakeRetarget snakeC ⟨5, 70⟩ ⟨5, 70⟩) ⟨5, 70⟩) =
        none from by
      rw [hret, show Vec2.sub ⟨5, 70⟩ (⟨5, 70⟩ : Vec2) = (⟨0, 0⟩ : Vec2) from by
            unfold Vec2.sub
            refine Vec2.ext ?_ ?_ <;> norm_num]
      exact normalize?_zero]
